import Mathlib

/-!
Verification of the event-publishing core and the widget message bridges of
the walk GUI toolkit, against its natural-language specification.

Handlers are identified by natural numbers (the spec requires handlers to be
identity-comparable so they can be removed by reference). The subscription
list of a publisher is a `List Handler` kept in attachment order.
-/

namespace Walk

/-- Handler identity, as required by the data model: a handler is
identity-comparable so it can be detached by reference. -/
abbrev Handler := Nat

/-- Modelled from the spec: `event.go` / `intevent.go` (the `Event` and
`EventPublisher` types) are not under `src/`; only their callers are. Per the
spec, `Attach(handler)` appends the handler to the subscription list, with no
constraint on handler uniqueness. -/
def Attach (s : List Handler) (h : Handler) : List Handler :=
  s ++ [h]

/-- Modelled from the spec: `Detach(handler)` removes a previously attached
handler — the first match, per the spec data-model note — and is a no-op when
the handler is not present. -/
def Detach : List Handler → Handler → List Handler
  | [], _ => []
  | x :: xs, h => if x = h then xs else x :: Detach xs h

/-- One action a handler may perform, re-entrantly, on the subscription list
of the publisher that is invoking it. -/
inductive HandlerAction where
  | attach (h : Handler)
  | detach (h : Handler)
  deriving DecidableEq

/-- Effect of one handler action on the subscription list. -/
def applyAction (s : List Handler) : HandlerAction → List Handler
  | .attach h => Attach s h
  | .detach h => Detach s h

/-- A script assignment: the list of subscription mutations each handler
performs when it is invoked. -/
abbrev Scripts := Handler → List HandlerAction

/-- Invoking one handler runs its script of subscription mutations on the
current subscription list. -/
def runHandler (scripts : Scripts) (s : List Handler) (h : Handler) : List Handler :=
  (scripts h).foldl applyAction s

/-- Modelled from the spec: `Publish()` invokes every currently-subscribed
handler in attachment order, iterating a snapshot of the subscriber list
taken at call time, so handlers may attach or detach during the iteration
without affecting which handlers this call invokes. Returns the subscription
list after all handler side effects, together with the invocation log (the
handlers invoked, in order). -/
def Publish (scripts : Scripts) (s : List Handler) : List Handler × List Handler :=
  (s.foldl (runHandler scripts) s, s)

/-- Modelled from the spec: `Publish(value)` of the integer-payload variant
(`IntEventPublisher`) behaves as `Publish()` and passes the payload to every
invoked handler. The log records each invocation with its payload. -/
def IntPublish (scripts : Scripts) (s : List Handler) (v : Int) :
    List Handler × List (Handler × Int) :=
  (s.foldl (runHandler scripts) s, s.map (fun h => (h, v)))

/-- A top-level call against one publisher: attach, detach, or publish. -/
inductive CallOp where
  | attach (h : Handler)
  | detach (h : Handler)
  | publish
  deriving DecidableEq

/-- Runs a sequence of top-level calls against a publisher, threading the
subscription list (so detachments performed inside handlers during one
publish are visible to all later calls) and collecting the invocation log of
each publish. -/
def runCalls (scripts : Scripts) : List CallOp → List Handler →
    List Handler × List (List Handler)
  | [], s => (s, [])
  | op :: ops, s =>
    match op with
    | .attach h => runCalls scripts ops (Attach s h)
    | .detach h => runCalls scripts ops (Detach s h)
    | .publish =>
      let p := Publish scripts s
      let r := runCalls scripts ops p.1
      (r.1, p.2 :: r.2)

/-- Sort order, from `src/models.go`: `SortAscending` and `SortDescending`. -/
inductive SortOrder where
  | sortAscending
  | sortDescending
  deriving DecidableEq

/-- State of `SorterBase` (`src/models.go`): a sort-changed `EventPublisher`
plus the recorded column and order of the last applied sort. -/
structure SorterBase where
  changedPublisher : List Handler
  col : Int
  order : SortOrder
  deriving DecidableEq

/-- What one subscriber of the sort-changed event observes when it is invoked
during a publish: the values `SortedColumn()` and `SortOrder()` return at
invocation time. -/
structure SortObservation where
  handler : Handler
  sortedColumn : Int
  sortOrder : SortOrder
  deriving DecidableEq

/-- `SorterBase.SortedColumn` (`src/models.go`): returns the stored column. -/
def SorterBase.SortedColumn (sb : SorterBase) : Int :=
  sb.col

/-- `SorterBase.SortOrder` (`src/models.go`): returns the stored order. The
method keeps the source name; the result type is the `SortOrder` enum. -/
def SorterBase.GetSortOrder (sb : SorterBase) : SortOrder :=
  sb.order

/-- `SorterBase.Sort` (`src/models.go`): first stores `(col, order)`, then
publishes the sort-changed event once, then returns a nil error. The result
is the new state, the returned error (`none` = Go nil), and the list of
publish calls made, each with its log of subscriber observations: every
subscriber is invoked in attachment order and observes the values that
`SortedColumn()` and `SortOrder()` return at that moment. -/
def SorterBase.Sort (sb : SorterBase) (col : Int) (order : SortOrder) :
    SorterBase × Option String × List (List SortObservation) :=
  let sb1 : SorterBase := { sb with col := col, order := order }
  let log := sb1.changedPublisher.map
    (fun h => ⟨h, sb1.SortedColumn, sb1.GetSortOrder⟩)
  (sb1, none, [log])

/-- One notification delivered by a `ListModelBase` publish: either a
subscriber of the items-reset channel was invoked, or a subscriber of the
item-changed channel was invoked with an index. -/
inductive ListEvent where
  | reset (handler : Handler)
  | changed (handler : Handler) (index : Int)
  deriving DecidableEq

/-- State of `ListModelBase` (`src/models.go`): one `EventPublisher` for the
items-reset channel and one `IntEventPublisher` for the item-changed
channel. -/
structure ListModelBase where
  itemsResetPublisher : List Handler
  itemChangedPublisher : List Handler
  deriving DecidableEq

/-- Attaching a handler to the items-reset channel of a `ListModelBase`, via
`lmb.ItemsReset().Attach(handler)`. -/
def ListModelBase.AttachItemsReset (m : ListModelBase) (h : Handler) : ListModelBase :=
  { m with itemsResetPublisher := Attach m.itemsResetPublisher h }

/-- Attaching a handler to the item-changed channel of a `ListModelBase`, via
`lmb.ItemChanged().Attach(handler)`. -/
def ListModelBase.AttachItemChanged (m : ListModelBase) (h : Handler) : ListModelBase :=
  { m with itemChangedPublisher := Attach m.itemChangedPublisher h }

/-- `ListModelBase.PublishItemsReset` (`src/models.go`): publishes on the
items-reset publisher, invoking exactly its subscribers in attachment order.
Returns the notification log. -/
def ListModelBase.PublishItemsReset (m : ListModelBase) : List ListEvent :=
  m.itemsResetPublisher.map ListEvent.reset

/-- `ListModelBase.PublishItemChanged` (`src/models.go`): publishes the index
on the item-changed publisher, invoking exactly its subscribers in attachment
order. Returns the notification log. -/
def ListModelBase.PublishItemChanged (m : ListModelBase) (index : Int) : List ListEvent :=
  m.itemChangedPublisher.map (fun h => ListEvent.changed h index)

/-- One notification delivered by a `TableModelBase` publish. -/
inductive TableEvent where
  | reset (handler : Handler)
  | changed (handler : Handler) (row : Int)
  deriving DecidableEq

/-- State of `TableModelBase` (`src/models.go`): one `EventPublisher` for the
rows-reset channel and one `IntEventPublisher` for the row-changed channel. -/
structure TableModelBase where
  rowsResetPublisher : List Handler
  rowChangedPublisher : List Handler
  deriving DecidableEq

/-- `TableModelBase.PublishRowsReset` (`src/models.go`): publishes on the
rows-reset publisher, invoking exactly its subscribers in attachment order. -/
def TableModelBase.PublishRowsReset (t : TableModelBase) : List TableEvent :=
  t.rowsResetPublisher.map TableEvent.reset

/-- `TableModelBase.PublishRowChanged` (`src/models.go`): publishes the row on
the row-changed publisher, invoking exactly its subscribers in attachment
order. -/
def TableModelBase.PublishRowChanged (t : TableModelBase) (row : Int) : List TableEvent :=
  t.rowChangedPublisher.map (fun h => TableEvent.changed h row)

/-- Win32 message constant `WM_COMMAND` (from the go-winapi dependency). -/
def WM_COMMAND : Nat := 0x0111

/-- Win32 message constant `WM_NOTIFY`. -/
def WM_NOTIFY : Nat := 0x004E

/-- Win32 message constant `WM_SIZE`. -/
def WM_SIZE : Nat := 0x0005

/-- Win32 message constant `WM_SIZING`. -/
def WM_SIZING : Nat := 0x0214

/-- Win32 notification code `BN_CLICKED`. -/
def BN_CLICKED : Nat := 0

/-- Win32 notification code `EN_CHANGE`. -/
def EN_CHANGE : Nat := 0x0300

/-- Win32 notification code `UDN_DELTAPOS` = `UDN_FIRST - 1` = `-722`, as the
unsigned 32-bit value carried in `NMHDR.Code`. -/
def UDN_DELTAPOS : Nat := 2 ^ 32 - 722

/-- go-winapi `HIWORD`: the high 16-bit word of a 32-bit value. -/
def HIWORD (w : Nat) : Nat :=
  (w / 2 ^ 16) % 2 ^ 16

/-- The source computes `HIWORD(uint32(wParam))`: the `uintptr` is first
truncated to 32 bits. -/
def hiwordOfWParam (wParam : Nat) : Nat :=
  HIWORD (wParam % 2 ^ 32)

/-- The events `Button` code can publish: only `Clicked`. -/
inductive ButtonEvent where
  | clicked
  deriving DecidableEq

/-- `Button.WndProc` (`src/button.go`): on `WM_COMMAND` with notification code
`BN_CLICKED` it calls `raiseClicked`, which publishes the `Clicked` event
once; every other message publishes nothing and falls through to
`WidgetBase.WndProc`, which is native glue with no access to the
`clickedPublisher`. The result is the list of `Publish` calls `Button` code
makes for this one native message. -/
def Button.WndProc (msg wParam : Nat) : List ButtonEvent :=
  if msg = WM_COMMAND then
    if hiwordOfWParam wParam = BN_CLICKED then [ButtonEvent.clicked] else []
  else []

/-- Splits a character list at the first dot, if any. -/
def splitDot : List Char → List Char × Option (List Char)
  | [] => ([], none)
  | c :: cs =>
    if c = '.' then ([], some cs)
    else
      let r := splitDot cs
      (c :: r.1, r.2)

/-- Reads a nonempty all-digit character list as a natural number. -/
def parseNatDigits (cs : List Char) : Option Nat :=
  if cs.isEmpty then none
  else if cs.all Char.isDigit then
    some (cs.foldl (fun a c => 10 * a + (c.toNat - 48)) 0)
  else none

/-- Reads an unsigned decimal numeral, with an optional fractional part. -/
def parseUnsigned (cs : List Char) : Option ℚ :=
  let p := splitDot cs
  match p.2 with
  | none => (parseNatDigits p.1).map (fun n => (n : ℚ))
  | some fp =>
    match parseNatDigits p.1, parseNatDigits fp with
    | some n, some f => some ((n : ℚ) + (f : ℚ) / (10 : ℚ) ^ fp.length)
    | _, _ => none

/-- Reads an optionally signed decimal numeral, or fails. -/
def parseDecimal (s : String) : Option ℚ :=
  match s.toList with
  | '-' :: rest => (parseUnsigned rest).map (fun v => -v)
  | '+' :: rest => parseUnsigned rest
  | cs => parseUnsigned cs

/-- Modelled from the spec: the repository helper `parseFloat` is not under
`src/`; following Go `strconv.ParseFloat` semantics it returns the parsed
value with a nil error on success, and the value `0` together with a syntax
error on unparsable input. Numbers are modelled as rationals and the numeral
grammar is plain signed decimals. -/
def parseFloat (s : String) : ℚ × Option String :=
  match parseDecimal s with
  | some v => (v, none)
  | none => (0, some "invalid syntax")

/-- Go `math.SmallestNonzeroFloat64`, the change-detection threshold of
`NumberEdit`, as a rational: the smallest positive subnormal float64. -/
def smallestNonzeroFloat64 : ℚ := 1 / 2 ^ 1074

/-- State of `NumberEdit` (`src/numberedit.go`) relevant to its message
bridge: the text of the inner line edit, the last observed value `oldValue`,
the up-down control handle and the increment. -/
structure NumberEdit where
  oldValue : ℚ
  text : String
  hWndUpDown : Nat
  increment : ℚ

/-- `NumberEdit.Value` (`src/numberedit.go`): parses the edit text with
`parseFloat`, discarding the error component, and returns the value. -/
def NumberEdit.Value (ne : NumberEdit) : ℚ :=
  (parseFloat ne.text).1

/-- Modelled from the spec: number-to-text formatting (`formatFloat`,
`strconv.Itoa`) is native-layer glue outside `src/`; it is modelled as an
abstract total rendering of the rational. No claim depends on its output. -/
def formatValue (v : ℚ) : String :=
  toString v.num ++ "/" ++ toString v.den

/-- `NumberEdit.SetValue` (`src/numberedit.go`): formats the value and stores
it as the edit text. The native `SetText` round trip is external. -/
def NumberEdit.SetValue (ne : NumberEdit) (v : ℚ) : NumberEdit :=
  { ne with text := formatValue v }

/-- The events `NumberEdit` code can publish: only `ValueChanged`. -/
inductive NumberEditEvent where
  | valueChanged
  deriving DecidableEq

/-- `NumberEdit.WndProc` (`src/numberedit.go`): with a live up-down control,
`WM_COMMAND`/`EN_CHANGE` parses the current text and, unless the absolute
difference from `oldValue` is below `math.SmallestNonzeroFloat64`, stores the
new value and publishes `ValueChanged` once; `WM_NOTIFY`/`UDN_DELTAPOS` (the
code and delta read from the `NMHDR` the `lParam` points at) steps the value
without publishing; `WM_SIZE`/`WM_SIZING` only relayouts. Everything falls
through to `WidgetBase.WndProc`, native glue with no access to the
`valueChangedPublisher`. Returns the new state and the list of `Publish`
calls made for this one native message. -/
def NumberEdit.WndProc (ne : NumberEdit) (msg wParam : Nat) (nmCode : Nat)
    (iDelta : Int) : NumberEdit × List NumberEditEvent :=
  if ne.hWndUpDown ≠ 0 then
    if msg = WM_COMMAND then
      if hiwordOfWParam wParam = EN_CHANGE then
        let value := ne.Value
        if |value - ne.oldValue| < smallestNonzeroFloat64 then (ne, [])
        else ({ ne with oldValue := value }, [NumberEditEvent.valueChanged])
      else (ne, [])
    else if msg = WM_NOTIFY then
      if nmCode = UDN_DELTAPOS then
        (ne.SetValue (ne.Value - iDelta * ne.increment), [])
      else (ne, [])
    else (ne, [])
  else (ne, [])

theorem Detach_sublist (s : List Handler) (h : Handler) : (Detach s h).Sublist s := by
  induction s with
  | nil => simp [Detach]
  | cons x xs ih =>
    by_cases hx : x = h
    · simp only [Detach, hx, if_pos]
      exact List.sublist_cons_self _ xs
    · simp only [Detach, hx, if_neg, not_false_iff]
      exact List.cons_sublist_cons.mpr ih

/-- C1: for every sequence of Attach/Detach/Publish calls — handler scripts
may attach and detach re-entrantly during publishes, and `runCalls` threads
those effects — the next `Publish` (of either publisher variant) invokes
exactly the currently-subscribed handlers, in subscription-list order, so a
handler not subscribed at call time (detached earlier, wherever that detach
ran) is never invoked during that call; the list itself is kept in
attachment order, since `Attach` appends and `Detach` preserves the relative
order of the remaining handlers. -/
theorem C1_publish_invokes_exactly_current_subscribers :
    ∀ (scripts : Scripts) (ops : List CallOp) (h : Handler) (v : Int),
      (Publish scripts (runCalls scripts ops []).1).2 = (runCalls scripts ops []).1
      ∧ (IntPublish scripts (runCalls scripts ops []).1 v).2
          = ((runCalls scripts ops []).1).map (fun x => (x, v))
      ∧ (h ∉ (runCalls scripts ops []).1 →
          h ∉ (Publish scripts (runCalls scripts ops []).1).2)
      ∧ Attach (runCalls scripts ops []).1 h = (runCalls scripts ops []).1 ++ [h]
      ∧ (Detach (runCalls scripts ops []).1 h).Sublist (runCalls scripts ops []).1 :=
  fun scripts ops h _ =>
    ⟨rfl, rfl, fun hm => hm, rfl, Detach_sublist (runCalls scripts ops []).1 h⟩

/-- C5: a handler attached twice to a publisher and not detached afterwards
is invoked exactly twice by a subsequent `Publish` call. -/
theorem C5_attached_twice_invoked_twice :
    ∀ (scripts : Scripts) (t : List Handler) (h : Handler),
      h ∉ t →
      (Publish scripts (Attach (Attach t h) h)).2.count h = 2 := by
  intro scripts t h hm
  simp [Publish, Attach, List.count_append, List.count_eq_zero.mpr hm]

/-- C5 witness: handler 7 attached twice to the empty publisher is invoked
exactly twice by the next publish. -/
theorem C5_attached_twice_invoked_twice_witness :
    (Publish (fun _ => []) (Attach (Attach [] 7) 7)).2.count 7 = 2 :=
  C5_attached_twice_invoked_twice (fun _ => []) [] 7 (by simp)

/-- C2: for every prior state, `SorterBase.Sort(col, order)` returns a nil
error, records the requested column and order, and publishes exactly one
sort-changed notification; in particular `Sort(-1, order)` yields
`SortedColumn() == -1` and `Sort(2, SortDescending)` yields
`SortedColumn() == 2` and `SortOrder() == SortDescending`. -/
theorem C2_sort_succeeds_records_and_notifies_once :
    ∀ (sb : SorterBase) (col : Int) (order : SortOrder),
      (sb.Sort col order).2.1 = none
      ∧ (sb.Sort col order).1.SortedColumn = col
      ∧ (sb.Sort col order).1.GetSortOrder = order
      ∧ (sb.Sort col order).2.2.length = 1
      ∧ (sb.Sort (-1) order).1.SortedColumn = -1
      ∧ (sb.Sort 2 .sortDescending).1.SortedColumn = 2
      ∧ (sb.Sort 2 .sortDescending).1.GetSortOrder = .sortDescending :=
  fun _ _ _ => ⟨rfl, rfl, rfl, rfl, rfl, rfl, rfl⟩

/-- C4: `SorterBase.Sort` stores `(col, order)` before publishing, so every
subscriber invoked during the sort-changed publish observes the new
`SortedColumn()` and `SortOrder()` values. -/
theorem C4_subscribers_observe_new_sort_state :
    ∀ (sb : SorterBase) (col : Int) (order : SortOrder)
      (log : List SortObservation) (obs : SortObservation),
      log ∈ (sb.Sort col order).2.2 → obs ∈ log →
      obs.sortedColumn = col ∧ obs.sortOrder = order := by
  intro sb col order log obs hlog hobs
  simp only [SorterBase.Sort, List.mem_singleton] at hlog
  subst hlog
  simp only [List.mem_map] at hobs
  obtain ⟨h, _, rfl⟩ := hobs
  exact ⟨rfl, rfl⟩

/-- C4 witness: with one subscriber, sorting column 2 descending produces an
observation of column 2 and descending order. -/
theorem C4_subscribers_observe_new_sort_state_witness :
    (⟨3, 2, .sortDescending⟩ : SortObservation).sortedColumn = 2
    ∧ (⟨3, 2, .sortDescending⟩ : SortObservation).sortOrder = .sortDescending :=
  C4_subscribers_observe_new_sort_state ⟨[3], 0, .sortAscending⟩ 2 .sortDescending
    [⟨3, 2, .sortDescending⟩] ⟨3, 2, .sortDescending⟩
    (by simp [SorterBase.Sort, SorterBase.SortedColumn, SorterBase.GetSortOrder])
    (by simp)

/-- C9: after `SorterBase.Sort(-1, order)` the stored order is `order` — the
order argument is recorded in the unsorted state too — and the stored column
is `-1`. -/
theorem C9_sort_unsorted_records_order :
    ∀ (sb : SorterBase) (order : SortOrder),
      (sb.Sort (-1) order).1.GetSortOrder = order
      ∧ (sb.Sort (-1) order).1.SortedColumn = -1 :=
  fun _ _ => ⟨rfl, rfl⟩

/-- C3: the two notification channels of each model base are separate: a
reset publish invokes exactly the reset-channel subscribers and delivers no
item/row-changed notification, and a changed publish invokes exactly the
changed-channel subscribers and delivers no reset notification, for
`ListModelBase` and `TableModelBase` alike. -/
theorem C3_model_base_channel_separation :
    ∀ (m : ListModelBase) (t : TableModelBase) (i r : Int),
      m.PublishItemsReset = m.itemsResetPublisher.map ListEvent.reset
      ∧ (∀ h x, ListEvent.changed h x ∉ m.PublishItemsReset)
      ∧ m.PublishItemChanged i = m.itemChangedPublisher.map (fun h => ListEvent.changed h i)
      ∧ (∀ h, ListEvent.reset h ∉ m.PublishItemChanged i)
      ∧ t.PublishRowsReset = t.rowsResetPublisher.map TableEvent.reset
      ∧ (∀ h x, TableEvent.changed h x ∉ t.PublishRowsReset)
      ∧ t.PublishRowChanged r = t.rowChangedPublisher.map (fun h => TableEvent.changed h r)
      ∧ (∀ h, TableEvent.reset h ∉ t.PublishRowChanged r) := by
  intro m t i r
  refine ⟨rfl, ?_, rfl, ?_, rfl, ?_, ?_, ?_⟩ <;>
    simp [ListModelBase.PublishItemsReset, ListModelBase.PublishItemChanged,
      TableModelBase.PublishRowsReset, TableModelBase.PublishRowChanged]

/-- C6: starting from a fresh `ListModelBase`, attaching handler `a` to the
item-changed channel and handler `b` to the items-reset channel, then calling
`PublishItemChanged(5)` followed by `PublishItemsReset()`, produces exactly
the ordered event log `[Changed(5), Reset]`. -/
theorem C6_roundtrip_event_log :
    ∀ (a b : Handler),
      ((({ itemsResetPublisher := [], itemChangedPublisher := [] } :
            ListModelBase).AttachItemChanged a).AttachItemsReset b).PublishItemChanged 5
        ++ ((({ itemsResetPublisher := [], itemChangedPublisher := [] } :
            ListModelBase).AttachItemChanged a).AttachItemsReset b).PublishItemsReset
      = [ListEvent.changed a 5, ListEvent.reset b] :=
  fun _ _ => rfl

/-- C7: one native message causes at most one publish: `Button.WndProc`
publishes `Clicked` exactly once for a `WM_COMMAND` carrying `BN_CLICKED` and
nothing for any other message, and one `NumberEdit.WndProc` invocation makes
at most one `ValueChanged` publish. -/
theorem C7_at_most_one_publish_per_message :
    ∀ (msg wParam : Nat) (ne : NumberEdit) (nmCode : Nat) (iDelta : Int),
      (Button.WndProc msg wParam).length ≤ 1
      ∧ (msg = WM_COMMAND → hiwordOfWParam wParam = BN_CLICKED →
          Button.WndProc msg wParam = [ButtonEvent.clicked])
      ∧ (¬(msg = WM_COMMAND ∧ hiwordOfWParam wParam = BN_CLICKED) →
          Button.WndProc msg wParam = [])
      ∧ (ne.WndProc msg wParam nmCode iDelta).2.length ≤ 1 := by
  intro msg wParam ne nmCode iDelta
  refine ⟨?_, ?_, ?_, ?_⟩
  · unfold Button.WndProc
    split <;> [skip; simp]
    split <;> simp
  · intro h1 h2
    simp [Button.WndProc, h1, h2]
  · intro hn
    unfold Button.WndProc
    split <;> [skip; rfl]
    split <;> [skip; rfl]
    exact absurd ⟨by assumption, by assumption⟩ hn
  · simp only [NumberEdit.WndProc]
    repeat' split
    all_goals simp

/-- C8: on an `EN_CHANGE` notification, `NumberEdit` suppresses the
`ValueChanged` publish and leaves its state (including `oldValue`) unchanged
when the absolute difference between the newly parsed value and the last
observed value is below `math.SmallestNonzeroFloat64`; otherwise it stores
the new value as `oldValue` and publishes `ValueChanged` exactly once. -/
theorem C8_en_change_guard :
    ∀ (ne : NumberEdit) (wParam nmCode : Nat) (iDelta : Int),
      ne.hWndUpDown ≠ 0 →
      hiwordOfWParam wParam = EN_CHANGE →
      (|ne.Value - ne.oldValue| < smallestNonzeroFloat64 →
          ne.WndProc WM_COMMAND wParam nmCode iDelta = (ne, []))
      ∧ (¬ |ne.Value - ne.oldValue| < smallestNonzeroFloat64 →
          ne.WndProc WM_COMMAND wParam nmCode iDelta
            = ({ ne with oldValue := ne.Value }, [NumberEditEvent.valueChanged])) := by
  intro ne wParam nmCode iDelta hup hw
  constructor
  · intro hlt
    simp [NumberEdit.WndProc, hup, hw, hlt]
  · intro hge
    simp [NumberEdit.WndProc, hup, hw, hge]

/-- C8 witness: with text "1", an up-down handle and `oldValue = 0` the
`EN_CHANGE` path stores 1 and publishes once; with `oldValue = 1` (difference
zero, below the threshold) it publishes nothing and keeps its state. -/
theorem C8_en_change_guard_witness :
    (NumberEdit.mk 0 "1" 1 1).WndProc WM_COMMAND 50331648 0 0
      = ({ NumberEdit.mk 0 "1" 1 1 with oldValue := (NumberEdit.mk 0 "1" 1 1).Value },
         [NumberEditEvent.valueChanged])
    ∧ (NumberEdit.mk 1 "1" 1 1).WndProc WM_COMMAND 50331648 0 0
      = (NumberEdit.mk 1 "1" 1 1, []) :=
  ⟨(C8_en_change_guard (NumberEdit.mk 0 "1" 1 1) 50331648 0 0 (by decide) (by decide)).2
      (by
        have hv : (NumberEdit.mk 0 "1" 1 1).Value = 1 := by decide
        rw [hv]
        norm_num [smallestNonzeroFloat64]),
   (C8_en_change_guard (NumberEdit.mk 1 "1" 1 1) 50331648 0 0 (by decide) (by decide)).1
      (by
        have hv : (NumberEdit.mk 1 "1" 1 1).Value = 1 := by decide
        rw [hv]
        norm_num [smallestNonzeroFloat64])⟩

/-- C10: whenever the edit text does not parse as a number, `NumberEdit.Value`
returns 0, and the parse error that `parseFloat` reports alongside is
discarded rather than surfaced to the caller. -/
theorem C10_value_returns_zero_on_parse_error :
    ∀ (ne : NumberEdit), parseDecimal ne.text = none →
      ne.Value = 0 ∧ (parseFloat ne.text).2.isSome = true := by
  intro ne h
  simp [NumberEdit.Value, parseFloat, h]

/-- C10 witness: the unparsable text "abc" yields value 0 with a discarded
syntax error. -/
theorem C10_value_returns_zero_on_parse_error_witness :
    (NumberEdit.mk 0 "abc" 0 1).Value = 0 ∧ (parseFloat "abc").2.isSome = true :=
  C10_value_returns_zero_on_parse_error (NumberEdit.mk 0 "abc" 0 1) (by decide)

end Walk
